import Mathlib

/-!
Verification of the nAuth encrypted-vault subsystem.

Shallow embedding of the TypeScript sources:
  src/services/encryption.service.ts  (EncryptionService)
  src/services/vault.service.ts       (VaultService)
  src/services/account.service.ts     (AccountService, BiometricService)
  src/services/otp.service.ts         (OTPService.validateSecret)
  src/services/storage.service.ts     (StorageService, an opaque key-value store)

External cryptographic primitives (PBKDF2 key derivation, AES-256-CBC with
PKCS7 padding, HMAC-SHA256, SHA-256) are supplied by the CryptoJS and
WebCrypto libraries; the embedding keeps them abstract, collected in the
structure CryptoPrims, and states library facts (such as AES decryption
inverting AES encryption under the same key and iv) as explicit hypotheses
of the theorems that need them.  Byte-level encodings that the source
applies at module boundaries (Base64 of the ciphertext, salt and iv;
hex rendering of a ciphertext WordArray before HMAC) are bijections
between byte strings and their encodings; the model absorbs them into the
abstract ciphertext type CT and into the salt and iv strings, preserving
the control flow of the source exactly.  JS runtime detail kept by the
model: a JS string is falsy exactly when it is empty, so the sources
checks of the form (!str) are rendered as equality with the empty string.
-/

namespace NAuth

/-- Abstract interface to the external cryptographic primitives used by
EncryptionService.  Key is the type of derived keys (32 bytes in the
source), CT the type of raw ciphertexts (a CryptoJS WordArray in the
source, identified with its Base64 rendering).  aesDecrypt returns none
when the decrypted bytes are not valid UTF-8 (CryptoJS toString(Utf8)
throws in that case) and some s otherwise. -/
structure CryptoPrims (Key CT : Type) where
  deriveKey : String → String → Key
  aesEncrypt : Key → String → String → CT
  aesDecrypt : Key → String → CT → Option String
  hmacSHA256 : Key → CT → String
  sha256hex : String → String

/-- Errors thrown by EncryptionService.decrypt:
integrityCheckFailed models the throw at the HMAC comparison
(message: Data integrity check failed),
decryptionFailed models the throw on empty decrypted output
(message: Decryption failed - incorrect password or corrupted data),
malformedUtf8 models the CryptoJS Utf8 stringify throw on byte
sequences that are not valid UTF-8. -/
inductive CryptoError where
  | integrityCheckFailed
  | decryptionFailed
  | malformedUtf8
deriving DecidableEq, Repr

/-- Return value of EncryptionService.encrypt: the envelope fields
(encrypted ciphertext, salt, iv, hmac).  In the source all four are
Base64 or hex strings; the model keeps the ciphertext abstract. -/
structure EncryptResult (CT : Type) where
  encrypted : CT
  salt : String
  iv : String
  hmac : String
deriving DecidableEq

namespace EncryptionService

/-- EncryptionService.encrypt (encryption.service.ts lines 68-106).
The source generates a random salt and iv when the caller omits them;
the model takes the (possibly generated) salt and iv as explicit
arguments.  The derived key is deriveKey(password, salt); the HMAC is
computed over the ciphertext keyed with the derived key. -/
def encrypt {Key CT : Type} (C : CryptoPrims Key CT)
    (data password salt iv : String) : EncryptResult CT :=
  let key := C.deriveKey password salt
  let ct := C.aesEncrypt key iv data
  { encrypted := ct, salt := salt, iv := iv, hmac := C.hmacSHA256 key ct }

/-- EncryptionService.decrypt (encryption.service.ts lines 111-155).
Re-derives the key, recomputes the HMAC over the (Base64-parsed)
ciphertext, throws integrityCheckFailed on mismatch BEFORE any cipher
decryption, then decrypts and throws decryptionFailed when the decrypted
string is empty (JS falsy check on the result). -/
def decrypt {Key CT : Type} (C : CryptoPrims Key CT)
    (encryptedData : CT) (password salt iv hmac : String) :
    Except CryptoError String :=
  let key := C.deriveKey password salt
  let computedHmac := C.hmacSHA256 key encryptedData
  if computedHmac ≠ hmac then
    .error .integrityCheckFailed
  else
    match C.aesDecrypt key iv encryptedData with
    | none => .error .malformedUtf8
    | some decryptedString =>
      if decryptedString = "" then .error .decryptionFailed
      else .ok decryptedString

/-- EncryptionService.createChecksum (encryption.service.ts lines 194-196):
SHA-256 of the data, rendered as hex, truncated to the first 8 characters
(substring(0, 8)). -/
def createChecksum {Key CT : Type} (C : CryptoPrims Key CT) (data : String) : String :=
  (C.sha256hex data).take 8

end EncryptionService

/-- Concrete instantiation of the abstract primitives used to evaluate
the development on closed inputs.  A derived key is the password-salt
pair; a toy ciphertext records the key, the iv and the plaintext, so toy
AES decryption inverts toy AES encryption exactly as real AES-256-CBC
with PKCS7 padding does for the matching key and iv. -/
def toyPrims : CryptoPrims (String × String) ((String × String) × String × String) where
  deriveKey := fun password salt => (password, salt)
  aesEncrypt := fun k iv p => (k, iv, p)
  aesDecrypt := fun k iv c => if c.1 = k ∧ c.2.1 = iv then some c.2.2 else none
  hmacSHA256 := fun _ c => String.append "mac:" c.2.2
  sha256hex := fun s => String.append s "%%%%%%%%"

/-- Toy AES decryption inverts toy AES encryption (the library fact that
the round-trip theorems take as a hypothesis). -/
theorem toyPrims_aes_roundtrip :
    ∀ k iv p, toyPrims.aesDecrypt k iv (toyPrims.aesEncrypt k iv p) = some p := by
  intro k iv p
  simp [toyPrims]

/-- Helper: decrypt inverts encrypt on non-empty plaintexts, given the
library fact that AES decryption inverts AES encryption under the same
key and iv.  Shared by the round-trip and transfer-codec theorems. -/
theorem decrypt_encrypt_ok {Key CT : Type} (C : CryptoPrims Key CT)
    (hAES : ∀ k iv p, C.aesDecrypt k iv (C.aesEncrypt k iv p) = some p)
    (P W salt iv : String) (hP : P ≠ "") :
    EncryptionService.decrypt C
      (EncryptionService.encrypt C P W salt iv).encrypted W salt iv
      (EncryptionService.encrypt C P W salt iv).hmac = .ok P := by
  unfold EncryptionService.decrypt EncryptionService.encrypt
  simp [hAES, hP]

/-- C1 (amended): for every NON-EMPTY plaintext P and every password W,
decrypting the envelope produced by encrypt(P, W) with the same password W
returns exactly P.  Hypothesis hAES is the library fact that AES-CBC
decryption inverts encryption under the same key and iv.  The claim as
stated, which includes the empty plaintext, is refuted by
decrypt_encrypt_empty_plaintext_fails below: decrypt rejects empty
decrypted output as a decryption failure. -/
theorem decrypt_encrypt_roundtrip {Key CT : Type} (C : CryptoPrims Key CT)
    (hAES : ∀ k iv p, C.aesDecrypt k iv (C.aesEncrypt k iv p) = some p)
    (P W salt iv : String) (hP : P ≠ "") :
    EncryptionService.decrypt C
      (EncryptionService.encrypt C P W salt iv).encrypted W
      (EncryptionService.encrypt C P W salt iv).salt
      (EncryptionService.encrypt C P W salt iv).iv
      (EncryptionService.encrypt C P W salt iv).hmac = .ok P :=
  decrypt_encrypt_ok C hAES P W salt iv hP

/-- Witness for decrypt_encrypt_roundtrip at concrete inputs. -/
theorem decrypt_encrypt_roundtrip_witness :
    EncryptionService.decrypt toyPrims
      (EncryptionService.encrypt toyPrims "hello" "pw" "s16" "iv16").encrypted "pw"
      (EncryptionService.encrypt toyPrims "hello" "pw" "s16" "iv16").salt
      (EncryptionService.encrypt toyPrims "hello" "pw" "s16" "iv16").iv
      (EncryptionService.encrypt toyPrims "hello" "pw" "s16" "iv16").hmac = .ok "hello" :=
  decrypt_encrypt_roundtrip toyPrims toyPrims_aes_roundtrip
    "hello" "pw" "s16" "iv16" (by decide)

/-- Counterexample to C1 as stated: at the empty plaintext the round trip
does not return the plaintext; decrypt throws its decryption-failed error
instead, because the source treats an empty decrypted string as falsy.
toyPrims satisfies the same AES round-trip law as the real library
(toyPrims_aes_roundtrip), so the failure comes from the decrypt code, not
from the toy primitives. -/
theorem decrypt_encrypt_empty_plaintext_fails :
    EncryptionService.decrypt toyPrims
      (EncryptionService.encrypt toyPrims "" "pw" "s16" "iv16").encrypted "pw"
      (EncryptionService.encrypt toyPrims "" "pw" "s16" "iv16").salt
      (EncryptionService.encrypt toyPrims "" "pw" "s16" "iv16").iv
      (EncryptionService.encrypt toyPrims "" "pw" "s16" "iv16").hmac
      = .error .decryptionFailed := by
  rfl

/-! ## Data model (types/index, vault.service.ts) -/

/-- Account.type: totp or hotp. -/
inductive OTPType where
  | totp
  | hotp
deriving DecidableEq, Repr

/-- Account.algorithm: SHA1, SHA256 or SHA512. -/
inductive OTPAlgorithm where
  | SHA1
  | SHA256
  | SHA512
deriving DecidableEq, Repr

/-- One 2FA credential as stored in the vault (the Account type of the
source).  Timestamps are epoch milliseconds. -/
structure Account where
  id : String
  name : String
  issuer : String
  secret : String
  type : OTPType
  algorithm : OTPAlgorithm
  digits : Nat
  period : Nat
  counter : Nat
  createdAt : Nat
  updatedAt : Nat
deriving DecidableEq, Repr

/-- Caller-supplied account fields: Omit of Account over id, createdAt
and updatedAt, the argument type of VaultService.addAccount. -/
structure AccountData where
  name : String
  issuer : String
  secret : String
  type : OTPType
  algorithm : OTPAlgorithm
  digits : Nat
  period : Nat
  counter : Nat
deriving DecidableEq, Repr

/-- Spread of the caller data with a generated id and both timestamps set
to now, as built inside VaultService.addAccount. -/
def AccountData.toAccount (d : AccountData) (id : String) (now : Nat) : Account :=
  { id := id, name := d.name, issuer := d.issuer, secret := d.secret,
    type := d.type, algorithm := d.algorithm, digits := d.digits,
    period := d.period, counter := d.counter,
    createdAt := now, updatedAt := now }

/-- Field projection from a stored account back to caller data, as built
literally in the importVault loop (name, issuer, secret, type, algorithm,
digits, period, counter). -/
def Account.toData (a : Account) : AccountData :=
  { name := a.name, issuer := a.issuer, secret := a.secret,
    type := a.type, algorithm := a.algorithm, digits := a.digits,
    period := a.period, counter := a.counter }

/-- Runtime state of VaultService: the three private static fields
masterPassword, accounts and isUnlocked. -/
structure VaultState where
  masterPassword : Option String
  accounts : List Account
  isUnlocked : Bool
deriving DecidableEq, Repr

/-- JS truthiness of the masterPassword field: null and the empty string
are falsy, every other string is truthy. -/
def passwordTruthy : Option String → Bool
  | none => false
  | some s => !s.isEmpty

/-- Persisted vault record (the EncryptedVault JSON shape:
version, salt, iv, data, hmac). -/
structure EncryptedVault (CT : Type) where
  version : String
  salt : String
  iv : String
  data : CT
  hmac : String

/-- Transfer payload (the exportData JSON shape built by exportVault:
version, encryptedData, salt, iv, hmac, checksum). -/
structure ExportData (CT : Type) where
  version : String
  encryptedData : CT
  salt : String
  iv : String
  hmac : String
  checksum : String

/-- Abstract JSON (de)serialization at the storage and transfer
boundaries.  JSON.parse throws on malformed input, modelled by Option;
a successful parse that does not have the expected shape is also
modelled as none (the source would then fail downstream on field
access). -/
structure JsonCodec (CT : Type) where
  parseVault : String → Option (EncryptedVault CT)
  parseAccounts : String → Option (List Account)
  serializeAccounts : List Account → String
  parseExport : String → Option (ExportData CT)

/-- Errors thrown by VaultService and AccountService. -/
inductive VaultError where
  | vaultLocked
  | vaultDoesNotExist
  | vaultAlreadyExists
  | accountNotFound
  | invalidSecretKey
  | importFailed
deriving DecidableEq, Repr

namespace VaultService

/-- VaultService.unlockVault (vault.service.ts lines 49-77).  stored is
the current value of StorageService.getItem(VAULT_KEY).  When no record
exists the source throws (Vault does not exist) before entering the try
block; inside the try block every failure (JSON parse of the record,
envelope decryption, JSON parse of the plaintext) is caught and turned
into the return value false with the three state fields untouched. -/
def unlockVault {Key CT : Type} (C : CryptoPrims Key CT) (J : JsonCodec CT)
    (stored : Option String) (st : VaultState) (masterPassword : String) :
    Except VaultError (VaultState × Bool) :=
  match stored with
  | none => .error .vaultDoesNotExist
  | some vaultData =>
    match J.parseVault vaultData with
    | none => .ok (st, false)
    | some vault =>
      match EncryptionService.decrypt C vault.data masterPassword
          vault.salt vault.iv vault.hmac with
      | .error _ => .ok (st, false)
      | .ok decryptedData =>
        match J.parseAccounts decryptedData with
        | none => .ok (st, false)
        | some accounts =>
          .ok ({ masterPassword := some masterPassword,
                 accounts := accounts, isUnlocked := true }, true)

/-- VaultService.lockVault (vault.service.ts lines 82-91): empties the
account list, clears the unlocked flag, and nulls the master password
field behind a JS truthiness test — if (this.masterPassword) — so a
stored empty-string password (falsy) is NOT set to null.  The
wipeString call mutates only a local copy and has no effect on state. -/
def lockVault (st : VaultState) : VaultState :=
  { accounts := [],
    isUnlocked := false,
    masterPassword :=
      match st.masterPassword with
      | none => none
      | some s => if s.isEmpty then some s else none }

/-- Guard of VaultService.saveVault (vault.service.ts lines 96-99):
throws (Vault is locked) when not unlocked or the master password is
falsy.  The rest of saveVault (serialize, encrypt with fresh salt and
iv, storage write) never changes the runtime VaultState, so only this
guard is visible to the state-level claims. -/
def saveVaultThrows (st : VaultState) : Bool :=
  !st.isUnlocked || !passwordTruthy st.masterPassword

/-- VaultService.getAccounts (vault.service.ts lines 123-128): throws
when locked, otherwise returns a spread copy of the account list (the
aliasing behaviour of the copy is modelled separately with an explicit
heap for claim C10). -/
def getAccounts (st : VaultState) : Except VaultError (List Account) :=
  if !st.isUnlocked then .error .vaultLocked
  else .ok st.accounts

/-- VaultService.addAccount (vault.service.ts lines 153-169): throws when
locked; otherwise pushes the new account (generated id, both timestamps
now) onto the list and then awaits saveVault.  JS exceptions do not roll
back the push, so when saveVault throws the returned state still
contains the new account. -/
def addAccount (newId : String) (now : Nat) (d : AccountData) (st : VaultState) :
    VaultState × Except VaultError Account :=
  if !st.isUnlocked then (st, .error .vaultLocked)
  else
    let newAccount := d.toAccount newId now
    let st' := { st with accounts := st.accounts ++ [newAccount] }
    if saveVaultThrows st' then (st', .error .vaultLocked)
    else (st', .ok newAccount)

end VaultService

/-! ## C2: unlockVault never throws past the boundary, failure keeps state -/

/-- C2: for every unlock attempt against an existing stored record, no
exception escapes unlockVault, and on every failure of the decryption
pipeline (record parse failure, envelope decryption failure of any kind,
plaintext parse failure) it returns false with the runtime state exactly
unchanged. -/
theorem unlockVault_failure_boundary {Key CT : Type}
    (C : CryptoPrims Key CT) (J : JsonCodec CT)
    (vaultData : String) (st : VaultState) (pw : String) :
    (∀ e, VaultService.unlockVault C J (some vaultData) st pw ≠ .error e) ∧
    (J.parseVault vaultData = none →
      VaultService.unlockVault C J (some vaultData) st pw = .ok (st, false)) ∧
    (∀ v, J.parseVault vaultData = some v →
      ∀ err, EncryptionService.decrypt C v.data pw v.salt v.iv v.hmac = .error err →
        VaultService.unlockVault C J (some vaultData) st pw = .ok (st, false)) ∧
    (∀ v plain, J.parseVault vaultData = some v →
      EncryptionService.decrypt C v.data pw v.salt v.iv v.hmac = .ok plain →
      J.parseAccounts plain = none →
        VaultService.unlockVault C J (some vaultData) st pw = .ok (st, false)) := by
  refine ⟨?_, ?_, ?_, ?_⟩
  · intro e h
    simp only [VaultService.unlockVault] at h
    cases hv : J.parseVault vaultData with
    | none =>
      simp only [hv] at h
      exact Except.noConfusion h
    | some v =>
      simp only [hv] at h
      cases hd : EncryptionService.decrypt C v.data pw v.salt v.iv v.hmac with
      | error err =>
        simp only [hd] at h
        exact Except.noConfusion h
      | ok plain =>
        simp only [hd] at h
        cases ha : J.parseAccounts plain with
        | none =>
          simp only [ha] at h
          exact Except.noConfusion h
        | some accs =>
          simp only [ha] at h
          exact Except.noConfusion h
  · intro hv
    simp only [VaultService.unlockVault, hv]
  · intro v hv err hd
    simp only [VaultService.unlockVault, hv, hd]
  · intro v plain hv hd ha
    simp only [VaultService.unlockVault, hv, hd, ha]

/-- Concrete stored vault whose HMAC field does not match the recomputed
HMAC, used to evaluate the unlock boundary. -/
def badVaultRecord : EncryptedVault ((String × String) × String × String) :=
  { version := "1.0.0", salt := "s16", iv := "iv16",
    data := (("pw", "s16"), "iv16", "payload"), hmac := "not-the-mac" }

/-- Trivial codec that parses every stored string to badVaultRecord. -/
def badVaultCodec : JsonCodec ((String × String) × String × String) :=
  { parseVault := fun _ => some badVaultRecord,
    parseAccounts := fun _ => some [],
    serializeAccounts := fun _ => "[]",
    parseExport := fun _ => none }

/-- Witness for unlockVault_failure_boundary: a concrete unlock attempt
whose envelope fails the integrity check returns false and keeps the
state. -/
theorem unlockVault_failure_boundary_witness :
    VaultService.unlockVault toyPrims badVaultCodec (some "blob")
      { masterPassword := none, accounts := [], isUnlocked := false } "pw"
      = .ok ({ masterPassword := none, accounts := [], isUnlocked := false }, false) :=
  (unlockVault_failure_boundary toyPrims badVaultCodec "blob"
      { masterPassword := none, accounts := [], isUnlocked := false } "pw").2.2.1
    badVaultRecord rfl CryptoError.integrityCheckFailed (by rfl)

/-! ## C9: lockVault postcondition and idempotence -/

/-- C9 (amended): lockVault always empties the account list and clears
the unlocked flag, is idempotent, and clears the master password
whenever the stored password is truthy (non-null and non-empty).  The
claim as stated, which asks for the password to be cleared from every
starting state, is refuted at the reachable state holding the empty
string as password: the JS truthiness guard skips the wipe there. -/
theorem lockVault_spec (st : VaultState) :
    (VaultService.lockVault st).accounts = [] ∧
    (VaultService.lockVault st).isUnlocked = false ∧
    (passwordTruthy st.masterPassword = true →
      (VaultService.lockVault st).masterPassword = none) ∧
    VaultService.lockVault (VaultService.lockVault st) = VaultService.lockVault st := by
  refine ⟨rfl, rfl, ?_, ?_⟩
  · intro h
    unfold VaultService.lockVault
    rcases hm : st.masterPassword with _ | s
    · rfl
    · simp only [passwordTruthy, hm, Bool.not_eq_true'] at h
      simp [h]
  · unfold VaultService.lockVault
    rcases hm : st.masterPassword with _ | s
    · rfl
    · by_cases h : s.isEmpty <;> simp [h]

/-- Witness for lockVault_spec at a concrete unlocked state with a
truthy password. -/
theorem lockVault_spec_witness :
    (VaultService.lockVault
        { masterPassword := some "pw", accounts := [], isUnlocked := true }).masterPassword
      = none :=
  (lockVault_spec { masterPassword := some "pw", accounts := [], isUnlocked := true }).2.2.1
    (by decide)

/-- Counterexample to C9 as stated: from the starting state whose master
password is the empty string (reachable via createVault with the empty
password, whose saveVault throws only after the assignments), lockVault
leaves the password field set, not cleared. -/
theorem lockVault_empty_password_not_cleared :
    (VaultService.lockVault
        { masterPassword := some "", accounts := [], isUnlocked := true }).masterPassword
      ≠ none := by
  decide

/-! ## C3: decrypt verifies the HMAC before any cipher decryption -/

/-- C3: for every envelope whose stored hmac differs from the HMAC
recomputed over the ciphertext with the key derived from the supplied
password, decrypt fails with the integrity error and never returns a
plaintext; when the stored hmac matches, the result is exactly the
outcome of cipher decryption, with empty output failing with the
distinct decryption error (and non-UTF-8 output with the library
stringify error). -/
theorem decrypt_verifies_hmac_first {Key CT : Type} (C : CryptoPrims Key CT)
    (ct : CT) (pw salt iv hm : String) :
    (C.hmacSHA256 (C.deriveKey pw salt) ct ≠ hm →
      EncryptionService.decrypt C ct pw salt iv hm = .error .integrityCheckFailed) ∧
    (C.hmacSHA256 (C.deriveKey pw salt) ct = hm →
      EncryptionService.decrypt C ct pw salt iv hm =
        match C.aesDecrypt (C.deriveKey pw salt) iv ct with
        | none => .error .malformedUtf8
        | some s => if s = "" then .error .decryptionFailed else .ok s) := by
  constructor
  · intro h
    simp only [EncryptionService.decrypt, if_pos h]
  · intro h
    simp only [EncryptionService.decrypt, h]
    simp

/-- Witness for decrypt_verifies_hmac_first: a concrete tampered hmac is
rejected with the integrity error, and a concrete matching hmac lets the
plaintext through. -/
theorem decrypt_verifies_hmac_first_witness :
    EncryptionService.decrypt toyPrims (("pw", "s16"), "iv16", "data")
        "pw" "s16" "iv16" "wrong" = .error .integrityCheckFailed ∧
    EncryptionService.decrypt toyPrims (("pw", "s16"), "iv16", "data")
        "pw" "s16" "iv16" "mac:data" = .ok "data" := by
  constructor
  · exact (decrypt_verifies_hmac_first toyPrims (("pw", "s16"), "iv16", "data")
      "pw" "s16" "iv16" "wrong").1 (by decide)
  · have h := (decrypt_verifies_hmac_first toyPrims (("pw", "s16"), "iv16", "data")
      "pw" "s16" "iv16" "mac:data").2 (by decide)
    rw [h]
    rfl

/-! ## OTPService.validateSecret and AccountService.addManual -/

namespace OTPService

/-- Cleaning step of validateSecret: JS replace of every whitespace
character by nothing, then toUpperCase.  Lean Char.isWhitespace covers
space, tab, CR and LF; the remaining members of the JS whitespace class
(form feed, vertical tab, unicode spaces) are immaterial here. -/
def cleanSecret (secret : String) : String :=
  ((secret.toList.filter (fun c => !c.isWhitespace)).map Char.toUpper).asString

/-- Character class of the Base32 regex in validateSecret. -/
def isBase32Char (c : Char) : Bool :=
  ('A' ≤ c && c ≤ 'Z') || ('2' ≤ c && c ≤ '7')

/-- Test of the regex from validateSecret, anchored at both ends: one or
more characters from A-Z or 2-7 followed by zero or more equals signs.
The maximal run of class characters is the only candidate match for the
greedy plus, so the test is takeWhile plus an all-padding check on the
remainder. -/
def base32RegexTest (s : String) : Bool :=
  let l := s.toList
  !(l.takeWhile isBase32Char).isEmpty &&
    (l.dropWhile isBase32Char).all (fun c => c = '=')

/-- OTPService.validateSecret (otp.service.ts lines 167-186): cleans the
secret, tests the Base32 regex on the cleaned form, then constructs an
OTPAuth.TOTP with the cleaned secret.  The library constructor decodes
exactly the Base32 alphabet admitted by the regex, so it is modelled as
succeeding on every regex-valid cleaned secret. -/
def validateSecret (secret : String) : Bool :=
  base32RegexTest (cleanSecret secret)

end OTPService

namespace AccountService

/-- AccountService.addManual (account.service.ts lines 37-44): throws
(Invalid secret key) when validateSecret rejects the caller-supplied
secret, otherwise forwards the account data UNCHANGED to
VaultService.addAccount. -/
def addManual (newId : String) (now : Nat) (accountData : AccountData)
    (st : VaultState) : VaultState × Except VaultError Account :=
  if !OTPService.validateSecret accountData.secret then
    (st, .error .invalidSecretKey)
  else
    VaultService.addAccount newId now accountData st

end AccountService

/-! ## C4: secrets are validated case-insensitively but stored verbatim -/

/-- C4 (amended): every account admitted through addManual passed Base32
validation of its cleaned (whitespace-stripped, uppercased) secret, and
the secret stored in the vault is EXACTLY the caller-supplied string —
no normalization is applied before storage.  The claim as stated, that
the stored secret is the normalized form, is refuted by
addManual_lowercase_secret_stored_verbatim below. -/
theorem addManual_secret_stored_verbatim (newId : String) (now : Nat)
    (d : AccountData) (st : VaultState) (a : Account)
    (h : (AccountService.addManual newId now d st).2 = .ok a) :
    OTPService.validateSecret d.secret = true ∧ a.secret = d.secret ∧
    (AccountService.addManual newId now d st).1.accounts
      = st.accounts ++ [d.toAccount newId now] := by
  by_cases hv : OTPService.validateSecret d.secret
  · by_cases hu : st.isUnlocked
    · by_cases hs : VaultService.saveVaultThrows
        { masterPassword := st.masterPassword,
          accounts := st.accounts ++ [d.toAccount newId now], isUnlocked := true }
      · exfalso
        simp [AccountService.addManual, VaultService.addAccount, hv, hu, hs] at h
      · refine ⟨hv, ?_, ?_⟩
        · simp [AccountService.addManual, VaultService.addAccount, hv, hu, hs] at h
          subst h
          rfl
        · simp [AccountService.addManual, VaultService.addAccount, hv, hu, hs]
    · exfalso
      simp [AccountService.addManual, VaultService.addAccount, hv, hu] at h
  · exfalso
    simp only [Bool.not_eq_true] at hv
    simp [AccountService.addManual, hv] at h

/-- Witness for addManual_secret_stored_verbatim at a concrete valid
secret added to a concrete unlocked vault. -/
theorem addManual_secret_stored_verbatim_witness :
    OTPService.validateSecret "JBSWY3DPEHPK3PXP" = true ∧
    (({ id := "id1", name := "alice", issuer := "GitHub",
        secret := "JBSWY3DPEHPK3PXP", type := OTPType.totp,
        algorithm := OTPAlgorithm.SHA1, digits := 6, period := 30, counter := 0,
        createdAt := 1000, updatedAt := 1000 } : Account).secret
      = "JBSWY3DPEHPK3PXP") ∧
    (AccountService.addManual "id1" 1000
        { name := "alice", issuer := "GitHub", secret := "JBSWY3DPEHPK3PXP",
          type := OTPType.totp, algorithm := OTPAlgorithm.SHA1,
          digits := 6, period := 30, counter := 0 }
        { masterPassword := some "pw", accounts := [], isUnlocked := true }).1.accounts
      = [] ++ [AccountData.toAccount
          { name := "alice", issuer := "GitHub", secret := "JBSWY3DPEHPK3PXP",
            type := OTPType.totp, algorithm := OTPAlgorithm.SHA1,
            digits := 6, period := 30, counter := 0 } "id1" 1000] :=
  addManual_secret_stored_verbatim "id1" 1000
    { name := "alice", issuer := "GitHub", secret := "JBSWY3DPEHPK3PXP",
      type := OTPType.totp, algorithm := OTPAlgorithm.SHA1,
      digits := 6, period := 30, counter := 0 }
    { masterPassword := some "pw", accounts := [], isUnlocked := true }
    (AccountData.toAccount
      { name := "alice", issuer := "GitHub", secret := "JBSWY3DPEHPK3PXP",
        type := OTPType.totp, algorithm := OTPAlgorithm.SHA1,
        digits := 6, period := 30, counter := 0 } "id1" 1000)
    (by rfl)

/-- Counterexample to C4 as stated: a lowercase spaced secret passes
validation (its cleaned form is valid Base32) and is admitted, but the
vault stores the caller string verbatim, which differs from the
normalized uppercase whitespace-stripped form. -/
theorem addManual_lowercase_secret_stored_verbatim :
    ((AccountService.addManual "id1" 1000
        { name := "alice", issuer := "GitHub", secret := "jbswy3dp ehpk3pxp",
          type := OTPType.totp, algorithm := OTPAlgorithm.SHA1,
          digits := 6, period := 30, counter := 0 }
        { masterPassword := some "pw", accounts := [], isUnlocked := true }).1.accounts.map
      Account.secret = ["jbswy3dp ehpk3pxp"]) ∧
    OTPService.cleanSecret "jbswy3dp ehpk3pxp" = "JBSWY3DPEHPK3PXP" ∧
    "jbswy3dp ehpk3pxp" ≠ "JBSWY3DPEHPK3PXP" := by
  refine ⟨by decide, by decide, by decide⟩

/-! ## Transfer codec: exportVault and importVault -/

namespace VaultService

/-- VaultService.exportVault (vault.service.ts lines 213-237): requires
unlocked with a truthy master password; the transfer password argument
is optional and JS-falsy-defaulted (undefined or empty string fall back
to the in-memory master password); serializes the accounts, encrypts
them (salt and iv are the random values generated inside encrypt,
passed explicitly here), and attaches the plaintext checksum.  The
source returns the JSON rendering of this record; the model returns the
record itself. -/
def exportVault {Key CT : Type} (C : CryptoPrims Key CT) (J : JsonCodec CT)
    (salt iv : String) (transferPassword : Option String) (st : VaultState) :
    Except VaultError (ExportData CT) :=
  if !st.isUnlocked || !passwordTruthy st.masterPassword then .error .vaultLocked
  else
    let password :=
      match transferPassword with
      | none => st.masterPassword.getD ""
      | some tp => if tp.isEmpty then st.masterPassword.getD "" else tp
    let data := J.serializeAccounts st.accounts
    let encrypted := EncryptionService.encrypt C data password salt iv
    let checksum := EncryptionService.createChecksum C data
    .ok { version := "1.0.0", encryptedData := encrypted.encrypted,
          salt := encrypted.salt, iv := encrypted.iv,
          hmac := encrypted.hmac, checksum := checksum }

/-- Duplicate test of the importVault loop (vault.service.ts lines
271-273): some existing account shares both issuer and name with the
incoming one. -/
def dupOf (accounts : List Account) (account : Account) : Bool :=
  accounts.any (fun acc => acc.issuer == account.issuer && acc.name == account.name)

/-- Loop body of VaultService.importVault (vault.service.ts lines
269-288): for each incoming account, skip it when the CURRENT list
(including accounts added earlier in the same import) holds a duplicate;
otherwise add it through the normal addAccount path with a freshly
generated id and fresh timestamps and count it.  gen is the stream of
ids produced by generateId, indexed by how many ids this import has
consumed so far, k the next index.  A throw inside addAccount aborts
the loop; the JS exception does not roll back additions already made. -/
def importLoop (gen : Nat → String) (now : Nat) :
    List Account → Nat → VaultState → VaultState × Except VaultError Nat
  | [], _, st => (st, .ok 0)
  | account :: rest, k, st =>
    if dupOf st.accounts account then
      importLoop gen now rest k st
    else
      match addAccount (gen k) now account.toData st with
      | (st1, .ok _) =>
        match importLoop gen now rest (k + 1) st1 with
        | (st2, .ok importedCount) => (st2, .ok (importedCount + 1))
        | (st2, .error e) => (st2, .error e)
      | (st1, .error e) => (st1, .error e)

/-- VaultService.importVault (vault.service.ts lines 242-295): throws
when locked (outside the try block); inside the try block, parses the
payload, decrypts it, fails when the recomputed plaintext checksum does
not equal the declared one, parses the plaintext and runs the merge
loop; every caught error is rethrown as the single import failure. -/
def importVault {Key CT : Type} (C : CryptoPrims Key CT) (J : JsonCodec CT)
    (gen : Nat → String) (now k : Nat)
    (exportedData transferPassword : String) (st : VaultState) :
    VaultState × Except VaultError Nat :=
  if !st.isUnlocked then (st, .error .vaultLocked)
  else
    match J.parseExport exportedData with
    | none => (st, .error .importFailed)
    | some importData =>
      match EncryptionService.decrypt C importData.encryptedData transferPassword
          importData.salt importData.iv importData.hmac with
      | .error _ => (st, .error .importFailed)
      | .ok decryptedData =>
        if EncryptionService.createChecksum C decryptedData ≠ importData.checksum then
          (st, .error .importFailed)
        else
          match J.parseAccounts decryptedData with
          | none => (st, .error .importFailed)
          | some importedAccounts =>
            match importLoop gen now importedAccounts k st with
            | (st1, .ok importedCount) => (st1, .ok importedCount)
            | (st1, .error _) => (st1, .error .importFailed)

end VaultService

/-! ## C7: post-decryption checksum verification in importVault -/

set_option maxHeartbeats 1000000 in
/-- C7: when the payload decrypts but the recomputed checksum of the
plaintext (SHA-256 hex truncated to the first 8 characters, the
definition of createChecksum) differs from the declared one, importVault
fails and adds no accounts; and for every exported payload, import with
the correct password recomputes exactly the declared checksum, so the
check passes. -/
theorem importVault_checksum_check {Key CT : Type}
    (C : CryptoPrims Key CT) (J : JsonCodec CT)
    (gen : Nat → String) (now k : Nat)
    (exportedData transferPassword : String) (st : VaultState) :
    (∀ importData plain,
      st.isUnlocked = true →
      J.parseExport exportedData = some importData →
      EncryptionService.decrypt C importData.encryptedData transferPassword
        importData.salt importData.iv importData.hmac = .ok plain →
      EncryptionService.createChecksum C plain ≠ importData.checksum →
        VaultService.importVault C J gen now k exportedData transferPassword st
          = (st, .error .importFailed)) ∧
    (∀ salt iv ed,
      (∀ key ivx p, C.aesDecrypt key ivx (C.aesEncrypt key ivx p) = some p) →
      transferPassword ≠ "" →
      J.serializeAccounts st.accounts ≠ "" →
      VaultService.exportVault C J salt iv (some transferPassword) st = .ok ed →
        EncryptionService.decrypt C ed.encryptedData transferPassword
          ed.salt ed.iv ed.hmac = .ok (J.serializeAccounts st.accounts) ∧
        EncryptionService.createChecksum C (J.serializeAccounts st.accounts)
          = ed.checksum) := by
  constructor
  · intro importData plain hu hparse hdec hchk
    simp only [VaultService.importVault, hu, Bool.not_true, Bool.false_eq_true,
      if_false, hparse, hdec]
    rw [if_pos hchk]
  · intro salt iv ed hAES htp hser hexp
    simp only [VaultService.exportVault] at hexp
    by_cases hg : (!st.isUnlocked || !passwordTruthy st.masterPassword) = true
    · rw [if_pos hg] at hexp
      exact Except.noConfusion hexp
    · rw [if_neg hg] at hexp
      have htp' : transferPassword.isEmpty = false := by
        cases he : transferPassword.isEmpty
        · rfl
        · exact absurd ((String.isEmpty_iff _).mp he) htp
      simp only [htp', Bool.false_eq_true, if_false] at hexp
      injection hexp with h
      subst h
      dsimp only
      constructor
      · exact decrypt_encrypt_ok C hAES (J.serializeAccounts st.accounts)
          transferPassword salt iv hser
      · exact rfl

/-- Concrete transfer payload whose envelope decrypts under the toy
primitives but whose declared checksum does not match the plaintext. -/
def mismatchedExport : ExportData ((String × String) × String × String) :=
  { version := "1.0.0", encryptedData := (("tp", "s16"), "iv16", "plain"),
    salt := "s16", iv := "iv16", hmac := "mac:plain", checksum := "bad" }

/-- Trivial codec whose parseExport always yields mismatchedExport. -/
def mismatchCodec : JsonCodec ((String × String) × String × String) :=
  { parseVault := fun _ => none,
    parseAccounts := fun _ => some [],
    serializeAccounts := fun _ => "[]",
    parseExport := fun _ => some mismatchedExport }

/-- Witness for importVault_checksum_check: a concrete import whose
plaintext checksum disagrees with the declared one fails and adds
nothing. -/
theorem importVault_checksum_check_witness :
    VaultService.importVault toyPrims mismatchCodec (fun i => toString i) 0 0
      "payload" "tp" { masterPassword := some "pw", accounts := [], isUnlocked := true }
      = ({ masterPassword := some "pw", accounts := [], isUnlocked := true },
         .error .importFailed) :=
  (importVault_checksum_check toyPrims mismatchCodec (fun i => toString i) 0 0
      "payload" "tp" { masterPassword := some "pw", accounts := [], isUnlocked := true }).1
    mismatchedExport "plain" rfl rfl (by rfl) (by decide)

/-! ## C5: import deduplication by (issuer, name) -/

/-- Accounts produced by the import loop for a list of admitted incoming
accounts: each one is rebuilt from its carried fields with the next
generated id and the current timestamps. -/
def enumerateAdds (gen : Nat → String) (now : Nat) : Nat → List Account → List Account
  | _, [] => []
  | k, a :: rest => a.toData.toAccount (gen k) now :: enumerateAdds gen now (k + 1) rest

/-- Appending one account to the list extends the duplicate test by that
account's (issuer, name) pair. -/
theorem dupOf_append_single (accs : List Account) (n b : Account) :
    VaultService.dupOf (accs ++ [n]) b =
      (VaultService.dupOf accs b || (n.issuer == b.issuer && n.name == b.name)) := by
  simp [VaultService.dupOf, List.any_append]

/-- Pure account-level semantics of the import merge loop of
vault.service.ts lines 269-288: the incoming accounts the loop admits,
deduplicating against the LIVE list — the pre-existing accounts plus the
incoming accounts admitted earlier in the same import (the source tests
this.accounts.some(...) against the list it is pushing into).  Only the
(issuer, name) pair of an admitted account matters for later tests, so
the raw incoming account is carried instead of its rebuilt form. -/
def admittedData : List Account → List Account → List Account
  | _, [] => []
  | existing, a :: rest =>
    if VaultService.dupOf existing a then admittedData existing rest
    else a :: admittedData (existing ++ [a]) rest

/-- admittedData only looks at the duplicate test of the incoming
accounts against the existing list. -/
theorem admittedData_congr : ∀ (l ex1 ex2 : List Account),
    (∀ b ∈ l, VaultService.dupOf ex1 b = VaultService.dupOf ex2 b) →
    admittedData ex1 l = admittedData ex2 l
  | [], _, _, _ => rfl
  | a :: rest, ex1, ex2, h => by
    have ha : VaultService.dupOf ex1 a = VaultService.dupOf ex2 a :=
      h a (List.mem_cons_self a rest)
    cases hdup : VaultService.dupOf ex2 a with
    | true =>
      rw [hdup] at ha
      simp only [admittedData, ha, hdup, if_true]
      exact admittedData_congr rest ex1 ex2 (fun b hb => h b (List.mem_cons_of_mem a hb))
    | false =>
      rw [hdup] at ha
      simp only [admittedData, ha, hdup, Bool.false_eq_true, if_false, List.cons.injEq,
        true_and]
      apply admittedData_congr rest
      intro b hb
      rw [dupOf_append_single, dupOf_append_single, h b (List.mem_cons_of_mem a hb)]

/-- When the incoming accounts carry pairwise distinct (issuer, name)
pairs, the evolving-list deduplication collapses to a filter against the
pre-existing accounts alone. -/
theorem admittedData_eq_filter : ∀ (l existing : List Account),
    l.Pairwise (fun a b => ¬(a.issuer = b.issuer ∧ a.name = b.name)) →
    admittedData existing l
      = l.filter (fun a => !VaultService.dupOf existing a)
  | [], _, _ => rfl
  | a :: rest, existing, hdist => by
    rcases List.pairwise_cons.mp hdist with ⟨hhead, htail⟩
    cases hdup : VaultService.dupOf existing a with
    | true =>
      simp only [admittedData, hdup, if_true, List.filter_cons, Bool.not_true,
        Bool.false_eq_true, if_false]
      exact admittedData_eq_filter rest existing htail
    | false =>
      have hstable : admittedData (existing ++ [a]) rest = admittedData existing rest := by
        apply admittedData_congr
        intro b hb
        have hnb : (a.issuer == b.issuer && a.name == b.name) = false := by
          cases hx : (a.issuer == b.issuer && a.name == b.name)
          · rfl
          · exfalso
            have hx2 : a.issuer = b.issuer ∧ a.name = b.name := by
              simpa using hx
            exact hhead b hb hx2
        rw [dupOf_append_single]
        show (VaultService.dupOf existing b ||
          (a.issuer == b.issuer && a.name == b.name)) = VaultService.dupOf existing b
        rw [hnb, Bool.or_false]
      simp only [admittedData, hdup, Bool.false_eq_true, if_false, List.filter_cons,
        Bool.not_false, if_true, List.cons.injEq, true_and]
      rw [hstable]
      exact admittedData_eq_filter rest existing htail

/-- Characterization of the import loop on an unlocked state with a
truthy password: exactly the incoming accounts admitted by the
evolving-list duplicate test are appended, rebuilt with consecutive
fresh ids and fresh timestamps, and their number is returned. -/
theorem importLoop_success (gen : Nat → String) (now : Nat)
    (l : List Account) : ∀ (k : Nat) (mp : Option String) (accs : List Account),
      passwordTruthy mp = true →
      VaultService.importLoop gen now l k ⟨mp, accs, true⟩ =
        (⟨mp, accs ++ enumerateAdds gen now k (admittedData accs l), true⟩,
         .ok (admittedData accs l).length) := by
  induction l with
  | nil =>
    intro k mp accs hp
    simp [VaultService.importLoop, enumerateAdds, admittedData]
  | cons a rest ih =>
    intro k mp accs hp
    cases hdup : VaultService.dupOf accs a with
    | true =>
      have hrec := ih k mp accs hp
      simp only [VaultService.importLoop, hdup, if_true, admittedData, hrec]
    | false =>
      have hsave : VaultService.saveVaultThrows
          ⟨mp, accs ++ [a.toData.toAccount (gen k) now], true⟩ = false := by
        simp [VaultService.saveVaultThrows, hp]
      have hcongr : admittedData (accs ++ [a.toData.toAccount (gen k) now]) rest
          = admittedData (accs ++ [a]) rest := by
        apply admittedData_congr
        intro b _
        rw [dupOf_append_single, dupOf_append_single]
        rfl
      have hrec := ih (k + 1) mp (accs ++ [a.toData.toAccount (gen k) now]) hp
      rw [hcongr] at hrec
      simp only [VaultService.importLoop, hdup, Bool.false_eq_true, if_false,
        VaultService.addAccount, Bool.not_true, hsave, hrec, admittedData]
      simp [enumerateAdds, List.append_assoc]

/-- C5 (amended): for every unlocked vault whose master password is
truthy and every valid transfer payload, importVault appends exactly the
incoming accounts admitted by the duplicate test against the LIVE list —
an incoming account is skipped when some pre-existing account OR an
account admitted earlier in the same import shares both issuer and name
(existing accounts are never merged or overwritten) — each admitted
account going through the normal addAccount path, rebuilt with a locally
generated fresh id and fresh timestamps, not the ones carried in the
payload, and returns exactly the number of accounts actually added.
When the incoming accounts carry pairwise distinct (issuer, name) pairs
this collapses to the claimed dedup against the pre-existing accounts
alone.  The claim as stated — dedup against pre-existing accounts only —
is refuted by importVault_intra_payload_duplicate_skipped: a valid
payload with two incoming accounts sharing (issuer, name), neither
matching a pre-existing account, has its second copy skipped. -/
theorem importVault_dedup_spec {Key CT : Type}
    (C : CryptoPrims Key CT) (J : JsonCodec CT)
    (gen : Nat → String) (now k : Nat)
    (exportedData transferPassword : String) (st : VaultState)
    (importData : ExportData CT) (plain : String) (importedAccounts : List Account)
    (hu : st.isUnlocked = true) (hp : passwordTruthy st.masterPassword = true)
    (hparse : J.parseExport exportedData = some importData)
    (hdec : EncryptionService.decrypt C importData.encryptedData transferPassword
      importData.salt importData.iv importData.hmac = .ok plain)
    (hchk : EncryptionService.createChecksum C plain = importData.checksum)
    (haccs : J.parseAccounts plain = some importedAccounts) :
    (VaultService.importVault C J gen now k exportedData transferPassword st =
      ({ st with accounts := st.accounts ++ enumerateAdds gen now k (admittedData st.accounts importedAccounts) },
       .ok (admittedData st.accounts importedAccounts).length)) ∧
    (importedAccounts.Pairwise (fun a b => ¬(a.issuer = b.issuer ∧ a.name = b.name)) →
      admittedData st.accounts importedAccounts
        = importedAccounts.filter (fun a => !VaultService.dupOf st.accounts a)) := by
  constructor
  · obtain ⟨mp, accs, unl⟩ := st
    have hu2 : unl = true := hu
    subst hu2
    have hp2 : passwordTruthy mp = true := hp
    have hloop := importLoop_success gen now importedAccounts k mp accs hp2
    simp only [VaultService.importVault, Bool.not_true, Bool.false_eq_true, if_false,
      hparse, hdec, hchk, ne_eq, not_true_eq_false, if_false, haccs, hloop]
  · intro hdist
    exact admittedData_eq_filter importedAccounts st.accounts hdist

/-- Concrete existing account (GitHub, alice). -/
def acctExisting : Account :=
  { id := "0", name := "alice", issuer := "GitHub", secret := "JBSWY3DPEHPK3PXP",
    type := .totp, algorithm := .SHA1, digits := 6, period := 30, counter := 0,
    createdAt := 0, updatedAt := 0 }

/-- Incoming account duplicating (GitHub, alice). -/
def impDup : Account :=
  { id := "x1", name := "alice", issuer := "GitHub", secret := "AAAA",
    type := .totp, algorithm := .SHA1, digits := 6, period := 30, counter := 0,
    createdAt := 5, updatedAt := 5 }

/-- Incoming account (GitHub, bob), no duplicate. -/
def impNew1 : Account :=
  { id := "x2", name := "bob", issuer := "GitHub", secret := "BBBB",
    type := .totp, algorithm := .SHA1, digits := 6, period := 30, counter := 0,
    createdAt := 5, updatedAt := 5 }

/-- Incoming account (GitLab, alice), no duplicate. -/
def impNew2 : Account :=
  { id := "x3", name := "alice", issuer := "GitLab", secret := "CCCC",
    type := .hotp, algorithm := .SHA256, digits := 8, period := 30, counter := 3,
    createdAt := 5, updatedAt := 5 }

/-- Concrete transfer payload decrypting to the marker plaintext, with
the matching checksum. -/
def wellFormedExport : ExportData ((String × String) × String × String) :=
  { version := "1.0.0", encryptedData := (("tp", "s16"), "iv16", "accjson"),
    salt := "s16", iv := "iv16", hmac := "mac:accjson", checksum := "accjson%" }

/-- Codec whose parseExport yields wellFormedExport and whose
parseAccounts maps the marker plaintext to three incoming accounts, one
of which duplicates (GitHub, alice). -/
def importCodec : JsonCodec ((String × String) × String × String) :=
  { parseVault := fun _ => none,
    parseAccounts := fun s => if s = "accjson" then some [impDup, impNew1, impNew2] else none,
    serializeAccounts := fun _ => "x",
    parseExport := fun _ => some wellFormedExport }

/-- Witness for importVault_dedup_spec: importing 3 accounts of which 1
duplicates an existing (issuer, name) pair yields importedCount 2, and
on these pairwise-distinct incoming accounts the admitted list is the
filter against the pre-existing accounts. -/
theorem importVault_dedup_spec_witness :
    ((VaultService.importVault toyPrims importCodec (fun i => toString i) 1000 0
      "payload" "tp"
      { masterPassword := some "pw", accounts := [acctExisting], isUnlocked := true }).2
      = .ok 2) ∧
    (admittedData [acctExisting] [impDup, impNew1, impNew2]
      = [impDup, impNew1, impNew2].filter
          (fun a => !VaultService.dupOf [acctExisting] a)) := by
  have h := importVault_dedup_spec toyPrims importCodec (fun i => toString i) 1000 0
    "payload" "tp"
    { masterPassword := some "pw", accounts := [acctExisting], isUnlocked := true }
    wellFormedExport "accjson" [impDup, impNew1, impNew2]
    rfl (by rfl) rfl (by rfl) (by rfl) (by rfl)
  refine ⟨?_, h.2 (by decide)⟩
  rw [h.1]
  rfl

/-- First of two incoming accounts sharing (GitHub, dana). -/
def impTwinA : Account :=
  { id := "y1", name := "dana", issuer := "GitHub", secret := "DDDD",
    type := .totp, algorithm := .SHA1, digits := 6, period := 30, counter := 0,
    createdAt := 7, updatedAt := 7 }

/-- Second of two incoming accounts sharing (GitHub, dana). -/
def impTwinB : Account :=
  { id := "y2", name := "dana", issuer := "GitHub", secret := "EEEE",
    type := .hotp, algorithm := .SHA256, digits := 8, period := 30, counter := 1,
    createdAt := 8, updatedAt := 8 }

/-- Concrete transfer payload decrypting to the twin-account marker,
with the matching checksum. -/
def dupPairExport : ExportData ((String × String) × String × String) :=
  { version := "1.0.0", encryptedData := (("tp", "s16"), "iv16", "dupjson"),
    salt := "s16", iv := "iv16", hmac := "mac:dupjson", checksum := "dupjson%" }

/-- Codec whose parseExport yields dupPairExport and whose parseAccounts
maps the marker plaintext to the two twin accounts. -/
def dupPairCodec : JsonCodec ((String × String) × String × String) :=
  { parseVault := fun _ => none,
    parseAccounts := fun s => if s = "dupjson" then some [impTwinA, impTwinB] else none,
    serializeAccounts := fun _ => "x",
    parseExport := fun _ => some dupPairExport }

/-- Counterexample to C5 as stated: a valid payload carries two incoming
accounts sharing (GitHub, dana); NEITHER duplicates a pre-existing
account (both survive the filter against the existing list, length 2),
yet importVault adds only the first and returns 1 — the loop skips the
second copy because its duplicate test runs against the live list, which
already holds the copy added moments earlier. -/
theorem importVault_intra_payload_duplicate_skipped :
    ((VaultService.importVault toyPrims dupPairCodec (fun i => toString i) 1000 0
      "payload" "tp"
      { masterPassword := some "pw", accounts := [acctExisting], isUnlocked := true }).2
      = .ok 1) ∧
    (([impTwinA, impTwinB].filter
        (fun a => !VaultService.dupOf [acctExisting] a)).length = 2) ∧
    ((VaultService.importVault toyPrims dupPairCodec (fun i => toString i) 1000 0
      "payload" "tp"
      { masterPassword := some "pw", accounts := [acctExisting], isUnlocked := true }).1.accounts.length
      = 2) := by
  refine ⟨by rfl, by decide, by rfl⟩

/-! ## C8: account ids are unique across addAccount and importVault -/

/-- State part of VaultService.addAccount: when unlocked the new account
is pushed (even when the subsequent saveVault throws, since a JS
exception does not roll the push back); when locked the state is
untouched. -/
theorem addAccount_state (newId : String) (now : Nat) (d : AccountData) (st : VaultState) :
    (VaultService.addAccount newId now d st).1 =
      if st.isUnlocked then { st with accounts := st.accounts ++ [d.toAccount newId now] }
      else st := by
  obtain ⟨mp, accs, unl⟩ := st
  cases unl with
  | false => simp [VaultService.addAccount]
  | true =>
    by_cases hs : VaultService.saveVaultThrows
        ⟨mp, accs ++ [d.toAccount newId now], true⟩ = true <;>
      simp [VaultService.addAccount, hs]

/-- State part of the import loop: it appends some list of accounts whose
ids are consecutive values of the id stream starting at the current
index (skipped duplicates consume no id). -/
theorem importLoop_state (gen : Nat → String) (now : Nat) (l : List Account) :
    ∀ (k : Nat) (st : VaultState),
    ∃ added : List Account,
      (VaultService.importLoop gen now l k st).1
        = { st with accounts := st.accounts ++ added } ∧
      ∀ i, ∀ h : i < added.length, (added.get ⟨i, h⟩).id = gen (k + i) := by
  induction l with
  | nil =>
    intro k st
    refine ⟨[], by simp [VaultService.importLoop], ?_⟩
    intro i h
    exact absurd h (by simp)
  | cons a rest ih =>
    intro k st
    obtain ⟨mp, accs, unl⟩ := st
    by_cases hdup : VaultService.dupOf accs a = true
    · obtain ⟨added, h1, h2⟩ := ih k ⟨mp, accs, unl⟩
      exact ⟨added, by simp only [VaultService.importLoop, hdup, if_true, h1], h2⟩
    · rw [Bool.not_eq_true] at hdup
      cases unl with
      | false =>
        refine ⟨[], ?_, ?_⟩
        · simp [VaultService.importLoop, hdup, VaultService.addAccount]
        · intro i h
          exact absurd h (by simp)
      | true =>
        by_cases hs : VaultService.saveVaultThrows
            ⟨mp, accs ++ [a.toData.toAccount (gen k) now], true⟩ = true
        · refine ⟨[a.toData.toAccount (gen k) now], ?_, ?_⟩
          · simp [VaultService.importLoop, hdup, VaultService.addAccount, hs]
          · intro i h
            have hi0 : i = 0 := by simpa using Nat.lt_one_iff.mp (by simpa using h)
            subst hi0
            simp [Account.toData, AccountData.toAccount]
        · obtain ⟨added, h1, h2⟩ :=
            ih (k + 1) ⟨mp, accs ++ [a.toData.toAccount (gen k) now], true⟩
          refine ⟨a.toData.toAccount (gen k) now :: added, ?_, ?_⟩
          · rcases hres : VaultService.importLoop gen now rest (k + 1)
                ⟨mp, accs ++ [a.toData.toAccount (gen k) now], true⟩
              with ⟨st2, r⟩
            rw [hres] at h1
            dsimp only at h1
            have hstep : (VaultService.importLoop gen now (a :: rest) k ⟨mp, accs, true⟩).1
                = st2 := by
              simp only [VaultService.importLoop, hdup, Bool.false_eq_true, if_false,
                VaultService.addAccount, Bool.not_true, hs, hres]
              cases r <;> rfl
            rw [hstep, h1]
            simp
          · intro i h
            cases i with
            | zero => simp [Account.toData, AccountData.toAccount]
            | succ j =>
              have hj : j < added.length := by simpa using h
              have := h2 j hj
              simpa [Nat.add_comm, Nat.add_assoc, Nat.add_left_comm] using this

/-- State part of VaultService.importVault: on every branch the state is
the incoming state with some list of accounts appended, the appended
accounts carrying consecutive ids of the id stream starting at k. -/
theorem importVault_state {Key CT : Type} (C : CryptoPrims Key CT) (J : JsonCodec CT)
    (gen : Nat → String) (now k : Nat)
    (exportedData transferPassword : String) (st : VaultState) :
    ∃ added : List Account,
      (VaultService.importVault C J gen now k exportedData transferPassword st).1
        = { st with accounts := st.accounts ++ added } ∧
      ∀ i, ∀ h : i < added.length, (added.get ⟨i, h⟩).id = gen (k + i) := by
  have hnil : ∀ i, ∀ h : i < ([] : List Account).length,
      (([] : List Account).get ⟨i, h⟩).id = gen (k + i) := by
    intro i h
    exact absurd h (by simp)
  obtain ⟨mp, accs, unl⟩ := st
  cases unl with
  | false =>
    exact ⟨[], by simp [VaultService.importVault], hnil⟩
  | true =>
    rcases hpe : J.parseExport exportedData with _ | importData
    · exact ⟨[], by simp [VaultService.importVault, hpe], hnil⟩
    · rcases hdec : EncryptionService.decrypt C importData.encryptedData transferPassword
          importData.salt importData.iv importData.hmac with e | plain
      · exact ⟨[], by simp [VaultService.importVault, hpe, hdec], hnil⟩
      · by_cases hchk : EncryptionService.createChecksum C plain ≠ importData.checksum
        · exact ⟨[], by simp only [VaultService.importVault, Bool.not_true,
            Bool.false_eq_true, if_false, hpe, hdec, if_pos hchk]; simp, hnil⟩
        · rcases hacc : J.parseAccounts plain with _ | importedAccounts
          · exact ⟨[], by simp only [VaultService.importVault, Bool.not_true,
              Bool.false_eq_true, if_false, hpe, hdec, if_neg hchk, hacc]; simp, hnil⟩
          · obtain ⟨added, h1, h2⟩ := importLoop_state gen now importedAccounts k
              ⟨mp, accs, true⟩
            refine ⟨added, ?_, h2⟩
            rcases hres : VaultService.importLoop gen now importedAccounts k
                ⟨mp, accs, true⟩ with ⟨st1, r⟩
            rw [hres] at h1
            dsimp only at h1
            have hstep : (VaultService.importVault C J gen now k
                exportedData transferPassword ⟨mp, accs, true⟩).1 = st1 := by
              simp only [VaultService.importVault, Bool.not_true, Bool.false_eq_true,
                if_false, hpe, hdec, if_neg hchk, hacc, hres]
              cases r <;> rfl
            rw [hstep, h1]

/-- Invariant tying the runtime account list to the id stream: every
account id was produced by an index below the watermark k, and the ids
are pairwise distinct. -/
def GenIdInv (gen : Nat → String) (k : Nat) (st : VaultState) : Prop :=
  (∀ a ∈ st.accounts, ∃ i, i < k ∧ a.id = gen i) ∧
  st.accounts.Pairwise (fun a b => a.id ≠ b.id)

/-- Appending accounts with fresh consecutive ids preserves the
invariant, for an injective id stream. -/
theorem genIdInv_extend (gen : Nat → String) (hinj : ∀ i j, gen i = gen j → i = j)
    (k : Nat) (st st1 : VaultState) (added : List Account)
    (hacc : st1.accounts = st.accounts ++ added)
    (hids : ∀ i, ∀ h : i < added.length, (added.get ⟨i, h⟩).id = gen (k + i))
    (h : GenIdInv gen k st) : GenIdInv gen (k + added.length) st1 := by
  obtain ⟨hmem, hpw⟩ := h
  constructor
  · intro a ha
    rw [hacc] at ha
    rcases List.mem_append.mp ha with hold | hnew
    · rcases hmem a hold with ⟨i, hik, hid⟩
      exact ⟨i, Nat.lt_of_lt_of_le hik (Nat.le_add_right _ _), hid⟩
    · rcases List.mem_iff_get.mp hnew with ⟨⟨i, hi⟩, rfl⟩
      exact ⟨k + i, Nat.add_lt_add_left hi k, hids i hi⟩
  · rw [hacc, List.pairwise_append]
    refine ⟨hpw, ?_, ?_⟩
    · rw [List.pairwise_iff_get]
      intro i j hij
      rw [hids i.1 i.2, hids j.1 j.2]
      intro he
      have hij2 : i.1 < j.1 := hij
      have := hinj _ _ he
      omega
    · intro a ha b hb
      rcases hmem a ha with ⟨i, hik, hid⟩
      rcases List.mem_iff_get.mp hb with ⟨⟨j, hj⟩, rfl⟩
      rw [hid, hids j hj]
      intro he
      have := hinj _ _ he
      omega

/-- Vault mutations that create accounts: a direct addAccount call or a
whole importVault call. -/
inductive VaultOp where
  | addOne (d : AccountData)
  | importFrom (exportedData transferPassword : String)

/-- One operation applied to the paired (id-stream watermark, state).
generateId is called exactly once per pushed account, so the watermark
advances by the number of accounts the operation appended. -/
def runOp {Key CT : Type} (C : CryptoPrims Key CT) (J : JsonCodec CT)
    (gen : Nat → String) (now : Nat) (op : VaultOp) :
    Nat × VaultState → Nat × VaultState
  | (k, st) =>
    match op with
    | .addOne d =>
      let st1 := (VaultService.addAccount (gen k) now d st).1
      (k + (st1.accounts.length - st.accounts.length), st1)
    | .importFrom exportedData transferPassword =>
      let st1 := (VaultService.importVault C J gen now k
        exportedData transferPassword st).1
      (k + (st1.accounts.length - st.accounts.length), st1)

/-- A sequence of mutations, applied left to right. -/
def runOps {Key CT : Type} (C : CryptoPrims Key CT) (J : JsonCodec CT)
    (gen : Nat → String) (now : Nat) (ops : List VaultOp)
    (p : Nat × VaultState) : Nat × VaultState :=
  ops.foldl (fun q op => runOp C J gen now op q) p

/-- One mutation preserves the id invariant. -/
theorem runOp_inv {Key CT : Type} (C : CryptoPrims Key CT) (J : JsonCodec CT)
    (gen : Nat → String) (hinj : ∀ i j, gen i = gen j → i = j)
    (now : Nat) (op : VaultOp) (k : Nat) (st : VaultState)
    (h : GenIdInv gen k st) :
    GenIdInv gen (runOp C J gen now op (k, st)).1 (runOp C J gen now op (k, st)).2 := by
  cases op with
  | addOne d =>
    simp only [runOp]
    rw [addAccount_state]
    cases hu : st.isUnlocked with
    | false =>
      simpa using h
    | true =>
      simp only [if_true]
      have hext := genIdInv_extend gen hinj k st
        { st with accounts := st.accounts ++ [d.toAccount (gen k) now] }
        [d.toAccount (gen k) now] rfl ?_ h
      · simpa using hext
      · intro i hilt
        have hi0 : i = 0 := by simpa using Nat.lt_one_iff.mp (by simpa using hilt)
        subst hi0
        simp [AccountData.toAccount]
  | importFrom e tp =>
    simp only [runOp]
    obtain ⟨added, h1, h2⟩ := importVault_state C J gen now k e tp st
    rw [h1]
    have hext := genIdInv_extend gen hinj k st
      { st with accounts := st.accounts ++ added } added rfl h2 h
    simpa using hext

/-- C8: for every injective id stream, every sequence of account-creating
operations (direct addAccount calls and importVault calls, whose
additions go through the same addAccount path) starting from a vault
with no accounts yields an in-memory list whose accounts carry pairwise
distinct ids, each id freshly generated at creation. -/
theorem account_ids_unique {Key CT : Type} (C : CryptoPrims Key CT) (J : JsonCodec CT)
    (gen : Nat → String) (hinj : ∀ i j, gen i = gen j → i = j)
    (now : Nat) (ops : List VaultOp) (st0 : VaultState) (h0 : st0.accounts = []) :
    ((runOps C J gen now ops (0, st0)).2).accounts.Pairwise (fun a b => a.id ≠ b.id) := by
  suffices hgen : ∀ (ops : List VaultOp) (k : Nat) (st : VaultState), GenIdInv gen k st →
      GenIdInv gen (runOps C J gen now ops (k, st)).1 (runOps C J gen now ops (k, st)).2 by
    have hinv0 : GenIdInv gen 0 st0 := by
      constructor
      · intro a ha
        rw [h0] at ha
        exact absurd ha (List.not_mem_nil a)
      · rw [h0]
        exact List.Pairwise.nil
    exact (hgen ops 0 st0 hinv0).2
  intro ops
  induction ops with
  | nil => intro k st h; exact h
  | cons op rest ih =>
    intro k st h
    have hstep := runOp_inv C J gen hinj now op k st h
    have := ih (runOp C J gen now op (k, st)).1 (runOp C J gen now op (k, st)).2 hstep
    simpa [runOps, List.foldl_cons] using this

/-- Provably injective concrete id stream used by the witness. -/
def unaryIds (i : Nat) : String := String.mk (List.replicate i 'a')

/-- unaryIds is injective. -/
theorem unaryIds_injective : ∀ i j, unaryIds i = unaryIds j → i = j := by
  intro i j h
  have h2 : (List.replicate i 'a').length = (List.replicate j 'a').length := by
    have := congrArg String.data h
    simp only [unaryIds] at this
    rw [this]
  simpa using h2

/-- Witness for account_ids_unique: two direct adds and one import on a
concrete empty vault produce pairwise distinct ids. -/
theorem account_ids_unique_witness :
    ((runOps toyPrims importCodec unaryIds 1000
        [VaultOp.addOne acctExisting.toData,
         VaultOp.importFrom "payload" "tp"]
        (0, { masterPassword := some "pw", accounts := [], isUnlocked := true })).2).accounts.Pairwise
      (fun a b => a.id ≠ b.id) :=
  account_ids_unique toyPrims importCodec unaryIds unaryIds_injective 1000
    [VaultOp.addOne acctExisting.toData, VaultOp.importFrom "payload" "tp"]
    { masterPassword := some "pw", accounts := [], isUnlocked := true } rfl

/-! ## C6: biometric enable, unlock, disable -/

/-- Stored biometric session record (the JSON persisted under
encrypted_session_key by BiometricService.enable): the envelope of the
master password plus the session key stored alongside it. -/
structure SessionData (CT : Type) where
  encrypted : CT
  salt : String
  iv : String
  hmac : String
  sessionKey : String

/-- The two storage slots BiometricService uses: the biometric_enabled
flag (a raw string, the source writes the literal string true) and the
session record (the JSON boundary is a bijection and is elided). -/
structure BioStore (CT : Type) where
  enabled : Option String
  session : Option (SessionData CT)

namespace BiometricService

/-- BiometricService.isEnabled (account.service.ts lines 225-232): the
stored flag must be exactly the string true. -/
def isEnabled {CT : Type} (store : BioStore CT) : Bool :=
  match store.enabled with
  | some s => s == "true"
  | none => false

/-- BiometricService.enable (account.service.ts lines 238-272): first
runs the biometric challenge (outcome authOk); on failure returns false
with nothing persisted; on success generates a random session key
(passed explicitly), encrypts the master password under it (salt and iv
are the randomness inside encrypt), stores the session record with the
session key alongside, and sets the enabled flag. -/
def enable {Key CT : Type} (C : CryptoPrims Key CT) (authOk : Bool)
    (sessionKey salt iv masterPassword : String) (store : BioStore CT) :
    BioStore CT × Bool :=
  if !authOk then (store, false)
  else
    let encrypted := EncryptionService.encrypt C masterPassword sessionKey salt iv
    ({ enabled := some "true",
       session := some { encrypted := encrypted.encrypted, salt := encrypted.salt,
                         iv := encrypted.iv, hmac := encrypted.hmac,
                         sessionKey := sessionKey } }, true)

/-- BiometricService.disable (account.service.ts lines 277-280): removes
both storage slots. -/
def disable {CT : Type} (_store : BioStore CT) : BioStore CT :=
  { enabled := none, session := none }

/-- BiometricService.unlock (account.service.ts lines 286-315): absent
unless enabled; runs a fresh challenge (outcome authOk); reads and
decrypts the session record; every failure (challenge rejected, no
session stored, decryption error) is caught and returns null. -/
def unlock {Key CT : Type} (C : CryptoPrims Key CT) (authOk : Bool)
    (store : BioStore CT) : Option String :=
  if !isEnabled store then none
  else if !authOk then none
  else
    match store.session with
    | none => none
    | some s =>
      match EncryptionService.decrypt C s.encrypted s.sessionKey s.salt s.iv s.hmac with
      | .error _ => none
      | .ok masterPassword => some masterPassword

end BiometricService

/-- C6 (amended): with an always-succeeding biometric challenge,
enable(pw) followed by unlock() returns exactly pw for every NON-EMPTY
pw; after disable(), unlock() returns absent for every challenge
outcome; and when the initial challenge during enable fails, enable
returns false without persisting anything (the store is returned
untouched).  The claim as stated, which quantifies over every pw, is
refuted at the empty master password by
biometric_empty_password_unlock_fails: the stored envelope decrypts to
the empty string, which decrypt rejects, so unlock returns absent. -/
theorem biometric_round_trip {Key CT : Type} (C : CryptoPrims Key CT)
    (hAES : ∀ k iv p, C.aesDecrypt k iv (C.aesEncrypt k iv p) = some p)
    (sessionKey salt iv masterPassword : String) (store : BioStore CT)
    (hpw : masterPassword ≠ "") :
    BiometricService.unlock C true
      (BiometricService.enable C true sessionKey salt iv masterPassword store).1
      = some masterPassword ∧
    (∀ (authOk : Bool) (st1 : BioStore CT),
      BiometricService.unlock C authOk (BiometricService.disable st1) = none) ∧
    BiometricService.enable C false sessionKey salt iv masterPassword store
      = (store, false) := by
  refine ⟨?_, ?_, ?_⟩
  · have hdec : EncryptionService.decrypt C
        (EncryptionService.encrypt C masterPassword sessionKey salt iv).encrypted
        sessionKey
        (EncryptionService.encrypt C masterPassword sessionKey salt iv).salt
        (EncryptionService.encrypt C masterPassword sessionKey salt iv).iv
        (EncryptionService.encrypt C masterPassword sessionKey salt iv).hmac
        = .ok masterPassword :=
      decrypt_encrypt_ok C hAES masterPassword sessionKey salt iv hpw
    simp only [BiometricService.enable, BiometricService.unlock,
      BiometricService.isEnabled, Bool.not_true, Bool.false_eq_true, if_false]
    simp only [hdec]
    rfl
  · intro authOk st1
    rfl
  · rfl

/-- Witness for biometric_round_trip at concrete inputs. -/
theorem biometric_round_trip_witness :
    BiometricService.unlock toyPrims true
      (BiometricService.enable toyPrims true "sk" "s16" "iv16" "hunter2"
        { enabled := none, session := none }).1 = some "hunter2" :=
  (biometric_round_trip toyPrims toyPrims_aes_roundtrip "sk" "s16" "iv16" "hunter2"
    { enabled := none, session := none } (by decide)).1

/-- Counterexample to C6 as stated: enabling with the empty master
password succeeds, but the subsequent unlock returns absent instead of
the empty password, because decrypt rejects the empty decrypted
string. -/
theorem biometric_empty_password_unlock_fails :
    BiometricService.unlock toyPrims true
      (BiometricService.enable toyPrims true "sk" "s16" "iv16" ""
        { enabled := none, session := none }).1 = none := by
  rfl

/-! ## C10: getAccounts returns a fresh copy (heap model of the spread) -/

/-- Minimal heap of account arrays, making the JS array identity of the
source observable: a cell index stands for an array reference. -/
structure Heap where
  cells : List (List Account)

/-- Dereference a cell (out-of-range reads give the empty array; the
theorems only use in-range references). -/
def Heap.read (h : Heap) (r : Nat) : List Account :=
  h.cells.getD r []

/-- Mutate the array behind a reference in place. -/
def Heap.write (h : Heap) (r : Nat) (v : List Account) : Heap :=
  ⟨h.cells.set r v⟩

/-- Allocate a fresh array, returning the new heap and its reference. -/
def Heap.alloc (h : Heap) (v : List Account) : Heap × Nat :=
  (⟨h.cells ++ [v]⟩, h.cells.length)

/-- VaultService.getAccounts (vault.service.ts lines 123-128) with the
array identity explicit: throws when locked; when unlocked the spread
[...this.accounts] allocates a NEW array holding the elements of the
private list, and that fresh reference is what the caller receives. -/
def getAccountsHeap (h : Heap) (isUnlocked : Bool) (vaultRef : Nat) :
    Except VaultError (Heap × Nat) :=
  if !isUnlocked then .error .vaultLocked
  else .ok (Heap.alloc h (h.read vaultRef))

/-- C10: when the vault is unlocked, getAccounts returns a fresh array:
its reference differs from the vault-internal one, it holds the same
elements, and writing ANY mutated array (elements added, removed or
reordered) through the returned reference leaves the vault-internal
array unchanged, so subsequent getAccounts calls still see the original
elements. -/
theorem getAccounts_fresh_copy (h : Heap) (vaultRef : Nat)
    (hv : vaultRef < h.cells.length) (mutated : List Account) :
    ∀ h1 r, getAccountsHeap h true vaultRef = .ok (h1, r) →
      r ≠ vaultRef ∧
      h1.read r = h.read vaultRef ∧
      (h1.write r mutated).read vaultRef = h.read vaultRef ∧
      getAccountsHeap (h1.write r mutated) true vaultRef
        = .ok (Heap.alloc (h1.write r mutated) (h.read vaultRef)) := by
  intro h1 r hok
  have hpair : ((⟨h.cells ++ [h.read vaultRef]⟩ : Heap), h.cells.length) = (h1, r) := by
    simpa [getAccountsHeap, Heap.alloc] using hok
  injection hpair with hh1 hr
  subst hh1
  subst hr
  have hne : h.cells.length ≠ vaultRef := Nat.ne_of_gt hv
  have happ2 : (h.cells ++ [mutated])[vaultRef]? = h.cells[vaultRef]? := by
    rw [List.getElem?_append, if_pos hv]
  refine ⟨hne, ?_, ?_, ?_⟩
  · show (h.cells ++ [h.read vaultRef]).getD h.cells.length [] = h.read vaultRef
    simp [List.getD, List.getElem?_concat_length]
  · show ((h.cells ++ [h.read vaultRef]).set h.cells.length mutated).getD vaultRef []
      = h.read vaultRef
    simp [List.getD, Heap.read, happ2]
  · simp only [getAccountsHeap, Bool.not_true, Bool.false_eq_true, if_false]
    have hrd : (({ cells := h.cells ++ [h.read vaultRef] } : Heap).write
          h.cells.length mutated).read vaultRef = h.read vaultRef := by
      simp [Heap.write, Heap.read, List.getD, happ2]
    rw [hrd]

/-- Witness for getAccounts_fresh_copy on a concrete one-cell heap. -/
theorem getAccounts_fresh_copy_witness :
    (1 : Nat) ≠ 0 ∧
    (Heap.read ⟨[[acctExisting], [acctExisting]]⟩ 1 = Heap.read ⟨[[acctExisting]]⟩ 0) ∧
    ((Heap.write ⟨[[acctExisting], [acctExisting]]⟩ 1 [impNew1, impNew2]).read 0
      = Heap.read ⟨[[acctExisting]]⟩ 0) ∧
    getAccountsHeap (Heap.write ⟨[[acctExisting], [acctExisting]]⟩ 1 [impNew1, impNew2]) true 0
      = .ok (Heap.alloc (Heap.write ⟨[[acctExisting], [acctExisting]]⟩ 1 [impNew1, impNew2])
          (Heap.read ⟨[[acctExisting]]⟩ 0)) :=
  getAccounts_fresh_copy ⟨[[acctExisting]]⟩ 0 (by decide) [impNew1, impNew2]
    ⟨[[acctExisting], [acctExisting]]⟩ 1 (by rfl)

end NAuth
